import Mathlib

/-!
Verification development for the axidraw-font repository.

Shallow embedding of the dual-mode plotter (dual_plotter.py) and the vector
text layout engine (dual_text_lib.py).  Coordinates, option values and font
metrics are modelled as exact rationals; the two Euclidean distance
accumulators of the plotter are real numbers (the source uses math.hypot).
The Pillow raster canvas and the physical pyaxidraw device are external
collaborators: raster drawing is not modelled, device interaction is
modelled as an append-only event trace.
-/

namespace AxidrawFont

/-- An RGB triple, as stored in the color table of dual_plotter.py. -/
abbrev RGB := ℕ × ℕ × ℕ

/-- Entries of the offline command log `_command_log` of DualPlotter:
`("moveto", x, y)`, `("lineto", x, y)` and `("color", name, None)`. -/
inductive Cmd where
  | moveto (x y : ℚ)
  | lineto (x y : ℚ)
  | color (name : String)
  deriving DecidableEq

/-- Calls forwarded to the physical device (`self._dev`) in device mode,
recorded here as an abstract event trace since pyaxidraw is external. -/
inductive DevEvent where
  | moveto (x y : ℚ)
  | lineto (x y : ℚ)
  | prompt (name : String)
  | connectDev
  deriving DecidableEq

/-- The five pen/speed options of `_Options` (dual_plotter.py lines 25-33).
The same record type serves for `_snapshot_current_options` results. -/
structure PlotOptions where
  pen_pos_down : ℚ
  pen_pos_up : ℚ
  speed_pendown : ℚ
  speed_penup : ℚ
  accel : ℚ
  deriving DecidableEq

/-- Default option values set in the `_Options` constructor. -/
def defaultOptions : PlotOptions :=
  { pen_pos_down := 70, pen_pos_up := 20, speed_pendown := 25,
    speed_penup := 60, accel := 30 }

/-- `DualPlotter._snapshot_current_options`: copies the five option fields. -/
def snapshot_current_options (o : PlotOptions) : PlotOptions :=
  { pen_pos_down := o.pen_pos_down, pen_pos_up := o.pen_pos_up,
    speed_pendown := o.speed_pendown, speed_penup := o.speed_penup,
    accel := o.accel }

/-- `DualPlotter._COLOR_TABLE` (dual_plotter.py lines 60-72), name to RGB. -/
def COLOR_TABLE : List (String × RGB) :=
  [("BLACK", (0, 0, 0)),
   ("RED", (220, 20, 60)),
   ("ORANGE", (255, 165, 0)),
   ("YELLOW", (255, 215, 0)),
   ("GREEN", (34, 139, 34)),
   ("CYAN", (0, 180, 180)),
   ("BLUE", (30, 144, 255)),
   ("PURPLE", (128, 0, 128)),
   ("MAGENTA", (255, 0, 255)),
   ("GREY", (200, 200, 200))]

/-- The RGB looked up at the key BLACK, `self._COLOR_TABLE[self.BLACK]`.
The key BLACK is present in the table, so the `getD` default is never used. -/
def blackRGB : RGB := (COLOR_TABLE.lookup "BLACK").getD (0, 0, 0)

/-- Argument of `_rgb_for_name`: Python is untyped, the function first checks
`isinstance(color_like, str)`; every non-string value takes the same branch. -/
inductive ColorArg where
  | str (s : String)
  | notStr
  deriving DecidableEq

/-- Removal of leading and trailing whitespace from a character list, the
effect of the Python str.strip method (written over the character list so
it evaluates by kernel reduction, unlike String.trim). -/
def pyStrip (cs : List Char) : List Char :=
  ((cs.dropWhile Char.isWhitespace).reverse.dropWhile Char.isWhitespace).reverse

/-- `color_like.strip().upper()`: strip whitespace, then uppercase. -/
def pyStripUpper (s : String) : String :=
  String.mk ((pyStrip s.data).map Char.toUpper)

/-- `DualPlotter._rgb_for_name` (dual_plotter.py lines 158-163): non-strings
map to black; strings are stripped and uppercased then looked up in the
color table with black as the fallback default. -/
def rgb_for_name (colorLike : ColorArg) : RGB :=
  match colorLike with
  | ColorArg.notStr => blackRGB
  | ColorArg.str s =>
      let name := pyStripUpper s
      (COLOR_TABLE.lookup name).getD blackRGB

/-- Floor of a rational plus one half, the nearest integer with ties going
up.  Written with explicit numerator and denominator arithmetic so it
evaluates by kernel reduction. -/
def ratRoundHalfUp (x : ℚ) : ℤ := Int.fdiv (2 * x.num + x.den) (2 * x.den)

/-- Rounding to three decimal places, modelling `round(float(x), 3)` used by
the replay script writer (Python rounds ties at half a thousandth to even;
this exact-rational model sends them up, a difference only visible on a tie
after exact float arithmetic). -/
def round3 (x : ℚ) : ℚ := (ratRoundHalfUp (x * 1000) : ℚ) / 1000

/-- One emitted replay command of the generated script: `ad.moveto(x, y)`,
`ad.lineto(x, y)`, or the pause block a color event expands to.  The script
also contains option assignments and boilerplate, modelled separately. -/
inductive ReplayLine where
  | moveto (x y : ℚ)
  | lineto (x y : ℚ)
  | colorPause (name : String)
  deriving DecidableEq

/-- Translation of a single logged command inside the replay loop of
`_write_replay_script` (dual_plotter.py lines 204-220).  A color event
expands to a park move to the origin followed by the blocking prompt.
The unknown-kind branch is unreachable here because the log is typed. -/
def replayStep : Cmd → List ReplayLine
  | Cmd.moveto x y => [ReplayLine.moveto (round3 x) (round3 y)]
  | Cmd.lineto x y => [ReplayLine.lineto (round3 x) (round3 y)]
  | Cmd.color n => [ReplayLine.moveto 0 0, ReplayLine.colorPause n]

/-- The sequence of replay commands emitted by `_write_replay_script` for a
command log (dual_plotter.py lines 192-220).  When the first logged entry is
a lineto, a moveto to that point is emitted and the loop then replays
`cmds[1:]`, the remaining entries. -/
def replayCmds : List Cmd → List ReplayLine
  | Cmd.lineto x y :: rest =>
      ReplayLine.moveto (round3 x) (round3 y) :: rest.flatMap replayStep
  | log => log.flatMap replayStep

/-- Euclidean distance in inches between two points,
`DualPlotter._segment_len` (dual_plotter.py lines 152-155, math.hypot). -/
noncomputable def segment_len (a b : ℚ × ℚ) : ℝ :=
  Real.sqrt (((b.1 - a.1) ^ 2 + (b.2 - a.2) ^ 2 : ℚ) : ℝ)

/-- The mutable state of one `DualPlotter` instance.  The Pillow image and
its pixel size are external to the claims and not modelled; the physical
device is modelled by the `devEvents` trace. -/
structure PState where
  useDevice : Bool
  xmin : ℚ
  ymin : ℚ
  xmax : ℚ
  ymax : ℚ
  pos : Option (ℚ × ℚ)
  penDistance : ℝ
  drawnLength : ℝ
  strokeName : String
  strokeRgb : RGB
  options : PlotOptions
  optionsSnapshot : Option PlotOptions
  commandLog : List Cmd
  devEvents : List DevEvent

/-- `DualPlotter.__init__` for a given mode and page bounding box: no pen
position yet, both distance accumulators zero, stroke color BLACK, default
options, no snapshot, empty log. -/
noncomputable def mkPlotter (useDevice : Bool)
    (xmin ymin xmax ymax : ℚ) : PState :=
  { useDevice := useDevice, xmin := xmin, ymin := ymin,
    xmax := xmax, ymax := ymax,
    pos := none, penDistance := 0, drawnLength := 0,
    strokeName := "BLACK", strokeRgb := blackRGB,
    options := defaultOptions, optionsSnapshot := none,
    commandLog := [], devEvents := [] }

/-- `DualPlotter.moveto` (dual_plotter.py lines 252-265): accumulate pen-up
travel when a previous position exists, update the position, then either
forward to the device or append a moveto log entry. -/
noncomputable def moveto (s : PState) (x y : ℚ) : PState :=
  let newDist : ℝ :=
    match s.pos with
    | some p => s.penDistance + segment_len p (x, y)
    | none => s.penDistance
  let s1 := { s with penDistance := newDist, pos := some (x, y) }
  if s.useDevice then
    { s1 with devEvents := s1.devEvents ++ [DevEvent.moveto x y] }
  else
    { s1 with commandLog := s1.commandLog ++ [Cmd.moveto x y] }

/-- `DualPlotter.lineto` (dual_plotter.py lines 267-295): with no previous
position, jump to the start (recording the lineto, drawing nothing);
otherwise add the segment length to both accumulators, forward or draw and
log, and update the position.  Rasterization itself is external. -/
noncomputable def lineto (s : PState) (x y : ℚ) : PState :=
  match s.pos with
  | none =>
      let s1 := { s with pos := some (x, y) }
      if s.useDevice then
        { s1 with devEvents := s1.devEvents ++ [DevEvent.lineto x y] }
      else
        { s1 with commandLog := s1.commandLog ++ [Cmd.lineto x y] }
  | some p =>
      let segLen := segment_len p (x, y)
      let s1 := { s with penDistance := s.penDistance + segLen,
                         drawnLength := s.drawnLength + segLen,
                         pos := some (x, y) }
      if s.useDevice then
        { s1 with devEvents := s1.devEvents ++ [DevEvent.lineto x y] }
      else
        { s1 with commandLog := s1.commandLog ++ [Cmd.lineto x y] }

/-- `DualPlotter.connect` (dual_plotter.py lines 244-250).  In device mode
the result comes from the external driver (`devReply`); offline, the option
snapshot is taken only if none exists yet and the call reports success. -/
noncomputable def connect (devReply : Bool) (s : PState) : Bool × PState :=
  if s.useDevice then
    (devReply, { s with devEvents := s.devEvents ++ [DevEvent.connectDev] })
  else
    match s.optionsSnapshot with
    | none =>
        let snap := some (snapshot_current_options s.options)
        (true, { s with optionsSnapshot := snap })
    | some _ => (true, s)

/-- User mutation of the options structure, `ad.options.<field> = v`. -/
noncomputable def setOptions (s : PState) (o : PlotOptions) : PState :=
  { s with options := o }

/-- The options applied by the generated replay script: the snapshot taken
at connect time, or the current option values if connect was never called
(dual_plotter.py lines 167-172). -/
noncomputable def replayScriptOptions (s : PState) : PlotOptions :=
  s.optionsSnapshot.getD (snapshot_current_options s.options)

/-- `DualPlotter.confirmColorChange` (dual_plotter.py lines 298-327): always
first a moveto to the origin; in device mode a blocking prompt; offline the
stroke color switches (black fallback) and a color event is logged. -/
noncomputable def confirmColorChange (s : PState) (newColor : String) : PState :=
  let s1 := moveto s 0 0
  if s.useDevice then
    { s1 with devEvents := s1.devEvents ++ [DevEvent.prompt newColor] }
  else
    { s1 with strokeName := newColor,
              strokeRgb := rgb_for_name (ColorArg.str newColor),
              commandLog := s1.commandLog ++ [Cmd.color newColor] }

/-- `DualPlotter.outlinePage` (dual_plotter.py lines 329-342).  The geometry
fields are never mutated by moveto and lineto, so reading them from the
initial state matches reading `self.xmin` before each call. -/
noncomputable def outlinePage (s : PState) (do_dots : Bool) : PState :=
  let s1 := moveto s s.xmin s.ymin
  let s2 := if do_dots then lineto s1 s.xmin s.ymin else s1
  let s3 := moveto s2 s.xmin s.ymax
  let s4 := if do_dots then lineto s3 s.xmin s.ymax else s3
  let s5 := moveto s4 s.xmax s.ymax
  let s6 := if do_dots then lineto s5 s.xmax s.ymax else s5
  let s7 := moveto s6 s.xmax s.ymin
  let s8 := if do_dots then lineto s7 s.xmax s.ymin else s7
  moveto s8 s.xmin s.ymin

/-- One glyph of the single-stroke font: a dict advance width in em and a
list of strokes, each an ordered list of points of the unit box
(dual_text_lib.py lines 92-275). -/
structure Glyph where
  w : ℚ
  strokes : List (List (ℚ × ℚ))

/-- The glyph stored at the question-mark key of FONT, the fallback glyph of
`FONT.get(ch, FONT[qm])` in draw_glyph. -/
def questionGlyph : Glyph :=
  ⟨1, [[(0, 0), (0.8, 0), (1, 0.2), (0.5, 0.5), (0.5, 0.8)],
       [(0.5, 1), (0.51, 1)]]⟩

/-- The FONT dict of dual_text_lib.py (lines 92-275).  The source dict
literal repeats the key for the letter w; Python keeps the later entry
(line 175), which is the one recorded here. -/
def FONT : Char → Option Glyph
  | 'a' => some ⟨1, [[(0, 1), (0.5, 0), (1, 1)],
       [(0.25, 0.5), (0.75, 0.5)]]⟩
  | 'b' => some ⟨1, [[(0, 0), (0.8, 0), (1, 0.2), (1, 0.5), (0, 0.5)],
       [(0, 0), (0, 1), (1, 1), (1, 0.7), (0.8, 0.5)]]⟩
  | 'c' => some ⟨1, [[(1, 0), (0.5, 0), (0, 1), (1, 1)]]⟩
  | 'd' => some ⟨1, [[(0, 0), (0.8, 0), (1, 0.2), (1, 1), (0, 1)],
       [(0.3, 1), (0.3, 0)]]⟩
  | 'e' => some ⟨1, [[(1, 0), (0, 0), (0, 1), (1, 1)],
       [(0, 0.5), (1, 0.5)]]⟩
  | 'f' => some ⟨1, [[(1, 0), (0.5, 0), (0, 1)],
       [(0.25, 0.5), (1, 0.5)]]⟩
  | 'g' => some ⟨1, [[(1, 0), (0.5, 0), (0, 1), (1, 1), (1, 0.5), (0.75, 0.5)]]⟩
  | 'h' => some ⟨1, [[(0, 0), (0, 1)],
       [(0, 0.5), (1, 0.5)],
       [(1, 1), (1, 0)]]⟩
  | 'i' => some ⟨1, [[(0, 0), (1, 0)],
       [(1, 1), (0, 1)],
       [(0.5, 1), (0.5, 0)]]⟩
  | 'j' => some ⟨1, [[(0, 0), (1, 0)],
       [(0.5, 0), (1, 0.5), (0, 1), (0, 0.75)]]⟩
  | 'k' => some ⟨1, [[(0, 0), (0, 1)],
       [(1, 0), (0, 0.5), (1, 1)]]⟩
  | 'l' => some ⟨1, [[(0, 0), (0, 1), (1, 1)]]⟩
  | 'm' => some ⟨1, [[(0, 1), (0, 0), (0.5, 0.5), (1, 0), (1, 1)]]⟩
  | 'n' => some ⟨1, [[(0, 1), (0, 0), (1, 1), (1, 0)]]⟩
  | 'o' => some ⟨0.6, [[(0, 0), (0.8, 0), (1, 0.2), (1, 1), (0, 1), (0, 0)]]⟩
  | 'p' => some ⟨0.6, [[(0, 1), (0, 0), (0.8, 0), (1, 0.2), (1, 0.5), (0, 0.5)]]⟩
  | 'q' => some ⟨0.6, [[(0, 0), (0, 1), (0.5, 1), (1, 0.5), (1, 0.2), (0.8, 0), (0, 0)],
       [(0.5, 0.5), (1, 1)]]⟩
  | 'r' => some ⟨0.6, [[(0, 1), (0, 0), (0.8, 0), (1, 0.2), (1, 0.5), (0, 0.5), (1, 1)]]⟩
  | 'w' => some ⟨1, [[(0, 0), (0.25, 1), (0.5, 0), (0.75, 1), (1, 0)]]⟩
  | 's' => some ⟨0.55, [[(1, 0), (0.5, 0), (0.25, 0.5), (1, 0.5), (1, 1), (0, 1)]]⟩
  | 't' => some ⟨1, [[(0, 0), (1, 0)],
       [(0.5, 0), (0.5, 1)]]⟩
  | 'u' => some ⟨1, [[(0, 0), (0, 1), (1, 1), (1, 0)]]⟩
  | 'v' => some ⟨1, [[(0, 0), (0.5, 1), (1, 0)]]⟩
  | 'x' => some ⟨1, [[(0, 0), (1, 1)],
       [(0, 1), (1, 0)]]⟩
  | 'y' => some ⟨1, [[(0, 0), (0.5, 0.5), (0.5, 1)],
       [(0.5, 0.5), (1, 0)]]⟩
  | 'z' => some ⟨1, [[(0, 0), (1, 0), (0, 1), (1, 1)]]⟩
  | '1' => some ⟨1, [[(0.25, 0.25), (0.5, 0), (0.5, 1), (0, 1)],
       [(0.5, 1), (1, 1)]]⟩
  | '2' => some ⟨1, [[(0, 0), (0.8, 0), (1, 0.2), (1, 0.5), (0, 1), (1, 1)]]⟩
  | '3' => some ⟨1, [[(0, 0), (1, 0), (1, 1), (0, 1)],
       [(0, 0.5), (1, 0.5)]]⟩
  | '4' => some ⟨1, [[(0, 0), (0, 0.5), (1, 0.5)],
       [(1, 1), (1, 0)]]⟩
  | '5' => some ⟨1, [[(0, 1), (1, 1), (1, 0.5), (0, 0.5), (0, 0), (1, 0)]]⟩
  | '6' => some ⟨1, [[(0, 0.5), (0, 1), (1, 1), (1, 0.5), (0, 0.5), (0.5, 0), (1, 0)]]⟩
  | '7' => some ⟨1, [[(0, 1), (1, 0), (0, 0)]]⟩
  | '8' => some ⟨1, [[(0, 0.5), (0, 0), (1, 0), (1, 0.5), (0, 0.5), (0, 1), (1, 1), (1, 0.5)]]⟩
  | '9' => some ⟨1, [[(1, 1), (1, 0), (0, 0), (0, 0.5), (1, 0.5)]]⟩
  | '0' => some ⟨1, [[(0, 0), (0, 1), (1, 1), (1, 0), (0, 0)],
       [(0, 1), (1, 0)]]⟩
  | '-' => some ⟨1, [[(0, 0.5), (1, 0.5)]]⟩
  | '.' => some ⟨1, [[(0, 1), (0.01, 1)]]⟩
  | '!' => some ⟨1, [[(0, 0), (0, 0.75)],
       [(0, 1), (0.01, 1)]]⟩
  | ',' => some ⟨1, [[(0, 1), (0.2, 0.8)]]⟩
  | '?' => some questionGlyph
  | '"' => some ⟨1, [[(0.3, 0), (0.3, 0.3)],
       [(0.7, 0), (0.7, 0.3)]]⟩
  | '%' => some ⟨1, [[(0, 0), (0.01, 0)],
       [(1, 0), (0, 1)],
       [(1, 1), (0.99, 1)]]⟩
  | '#' => some ⟨1, [[(0.3, 0), (0.3, 1)],
       [(0.7, 0), (0.7, 1)],
       [(0, 0.35), (1, 0.35)],
       [(0, 0.65), (1, 0.65)]]⟩
  | '+' => some ⟨1, [[(0, 0.5), (1, 0.5)],
       [(0.5, 0.2), (0.5, 0.8)]]⟩
  | 'ß' => some ⟨1, [[(0, 1), (0, 0), (0.8, 0), (1, 0.2), (1, 0.4), (0, 0.5), (1, 0.6), (1, 0.8), (0.8, 1), (0.5, 1)]]⟩
  | 'é' => some ⟨1, [[(1, 0), (0, 0), (0, 1), (1, 1)],
       [(0, 0.5), (1, 0.5)],
       [(0.35, -0.15), (0.65, -0.35)]]⟩
  | 'í' => some ⟨1, [[(0, 0), (1, 0)],
       [(1, 1), (0, 1)],
       [(0.5, 1), (0.5, 0)],
       [(0.35, -0.15), (0.65, -0.35)]]⟩
  | ' ' => some ⟨0.35, []⟩
  | _ => none

/-- `FONT.get(ch, FONT[qm])`: lookup with the question-mark glyph default. -/
def fontGet (ch : Char) : Glyph := (FONT ch).getD questionGlyph

/-- `GLYPH_WIDTH_EM` (dual_text_lib.py line 304): the uniform em width used
for both drawing and measuring, 0.6. -/
def GLYPH_WIDTH_EM : ℚ := 0.6

/-- `glyph_advance_inches` (dual_text_lib.py lines 306-308). -/
def glyph_advance_inches (height_in letter_spacing_em : ℚ) : ℚ :=
  (GLYPH_WIDTH_EM + letter_spacing_em) * height_in

/-- `space_advance_inches` (dual_text_lib.py lines 310-320). -/
def space_advance_inches (height_in letter_spacing_em : ℚ)
    (word_spacing_em : Option ℚ) : ℚ :=
  match word_spacing_em with
  | some wse => wse * height_in
  | none => glyph_advance_inches height_in letter_spacing_em

/-- `measure_word_width_inches` (dual_text_lib.py lines 322-327). -/
def measure_word_width_inches (word : String)
    (height_in letter_spacing_em : ℚ) : ℚ :=
  if word = "" then 0
  else (word.length : ℚ) * glyph_advance_inches height_in letter_spacing_em

/-- `draw_polyline` (dual_text_lib.py lines 277-285): a pen-up move to the
first scaled point, then pen-down lines to the remaining points. -/
noncomputable def draw_polyline (s : PState) (poly : List (ℚ × ℚ))
    (ox oy sx sy : ℚ) : PState :=
  match poly with
  | [] => s
  | p0 :: rest =>
      let s1 := moveto s (ox + p0.1 * sx) (oy + p0.2 * sy)
      rest.foldl (fun st p => lineto st (ox + p.1 * sx) (oy + p.2 * sy)) s1

/-- `draw_glyph` (second definition, dual_text_lib.py lines 331-344): draws
the strokes of the glyph scaled by a uniform width and the height, and
returns the advance, uniform em width times height plus tracking.  The
advance does not read the per-glyph dict width field. -/
noncomputable def draw_glyph (s : PState) (ch : Char) (x y height_in : ℚ)
    (tracking_in : ℚ) : PState × ℚ :=
  let g := fontGet ch
  let sx := GLYPH_WIDTH_EM * height_in
  let sy := height_in
  (g.strokes.foldl (fun st stroke => draw_polyline st stroke x y sx sy) s,
   sx + tracking_in)

/-- The loop body of `draw_text_line` (dual_text_lib.py lines 364-374),
acting on the pair of plotter state and cursor position.  The height
argument is the already scaled height. -/
noncomputable def draw_text_line_step (baseline_y_in h letter_spacing_em : ℚ)
    (word_spacing_em : Option ℚ) (acc : PState × ℚ) (ch : Char) :
    PState × ℚ :=
  let glyphKey := ch.toLower
  if glyphKey = ' ' ∧ word_spacing_em.isSome then
    (acc.1, acc.2 + word_spacing_em.getD 0 * h)
  else
    let tracking := letter_spacing_em * h
    let res := draw_glyph acc.1 glyphKey acc.2 baseline_y_in h tracking
    (res.1, acc.2 + res.2)

/-- `draw_text_line` (dual_text_lib.py lines 346-374).  The Python function
returns nothing; the final cursor position, a local there, is exposed as the
second component for specification purposes. -/
noncomputable def draw_text_line (s : PState) (text : String)
    (origin_x_in baseline_y_in height_in letter_spacing_em : ℚ)
    (word_spacing_em : Option ℚ) (font_scale : ℚ) : PState × ℚ :=
  let h := height_in * font_scale
  text.data.foldl
    (draw_text_line_step baseline_y_in h letter_spacing_em word_spacing_em)
    (s, origin_x_in)

/-- The word accumulation loop of `draw_wrapped_text` (dual_text_lib.py
lines 408-426), with the words still to process and the current line and
its running width as arguments. -/
def wrapLoop (height_in letter_spacing_em : ℚ) (word_spacing_em : Option ℚ)
    (max_width_in : ℚ) :
    List String → List String → ℚ → List (List String)
  | [], currentWords, _ => if currentWords = [] then [] else [currentWords]
  | w :: rest, currentWords, currentWidth =>
      let wWidth := measure_word_width_inches w height_in letter_spacing_em
      let addSpace := currentWords ≠ []
      let extraSpaceWidth :=
        if addSpace then
          space_advance_inches height_in letter_spacing_em word_spacing_em
        else 0
      if currentWords ≠ [] ∧
          currentWidth + extraSpaceWidth + wWidth > max_width_in * 0.6 then
        currentWords ::
          wrapLoop height_in letter_spacing_em word_spacing_em max_width_in
            rest [w] wWidth
      else
        wrapLoop height_in letter_spacing_em word_spacing_em max_width_in
          rest (currentWords ++ [w])
          (currentWidth + extraSpaceWidth + wWidth)

/-- The lines computed by the wrapping phase of `draw_wrapped_text`, as
lists of words (the source joins each with single spaces when drawing). -/
def wrapWords (words : List String) (height_in letter_spacing_em : ℚ)
    (word_spacing_em : Option ℚ) (max_width_in : ℚ) : List (List String) :=
  wrapLoop height_in letter_spacing_em word_spacing_em max_width_in
    words [] 0

/-- Splitting a character list at whitespace runs, keeping only the
non-empty chunks; the accumulator holds the current chunk reversed. -/
def pySplitAux : List Char → List Char → List (List Char)
  | [], cur => if cur = [] then [] else [cur.reverse]
  | c :: cs, cur =>
      if Char.isWhitespace c then
        if cur = [] then pySplitAux cs []
        else cur.reverse :: pySplitAux cs []
      else pySplitAux cs (c :: cur)

/-- `text.split()` of Python with no separator argument: split on whitespace
runs, dropping empty chunks (written over the character list so it
evaluates by kernel reduction). -/
def splitWords (text : String) : List String :=
  (pySplitAux text.data []).map String.mk

/-- The width contribution of the words after the first one of a line: for
each, one inter-word space advance plus the word width. -/
def lineTailWidth (height_in letter_spacing_em : ℚ)
    (word_spacing_em : Option ℚ) : List String → ℚ
  | [] => 0
  | w :: rest =>
      space_advance_inches height_in letter_spacing_em word_spacing_em +
      measure_word_width_inches w height_in letter_spacing_em +
      lineTailWidth height_in letter_spacing_em word_spacing_em rest

/-- The measured width of one wrapped line: word widths plus one inter-word
space advance between adjacent words, at the unscaled base height. -/
def lineMeasuredWidth (height_in letter_spacing_em : ℚ)
    (word_spacing_em : Option ℚ) : List String → ℚ
  | [] => 0
  | w :: rest =>
      measure_word_width_inches w height_in letter_spacing_em +
      lineTailWidth height_in letter_spacing_em word_spacing_em rest

/-- `draw_wrapped_text` (dual_text_lib.py lines 377-445): wrap with unscaled
metrics, then draw each line with the scale applied, advancing the baseline
by the scaled line spacing; returns the number of lines, or none for empty
input (the Python function falls off the early return with None). -/
noncomputable def draw_wrapped_text (s : PState) (text : String)
    (origin_x_in baseline_y_in height_in max_width_in letter_spacing_em : ℚ)
    (word_spacing_em : Option ℚ) (line_spacing_in : Option ℚ)
    (font_scale : ℚ) : PState × Option ℕ :=
  let lineSpacing := line_spacing_in.getD (1.5 * height_in)
  let words := splitWords text
  if words = [] then (s, none)
  else
    let lines :=
      (wrapWords words height_in letter_spacing_em word_spacing_em
        max_width_in).map (fun l => String.intercalate " " l)
    let scaledLineSpacing := lineSpacing * font_scale
    let final := lines.foldl
      (fun (acc : PState × ℚ) line =>
        ((draw_text_line acc.1 line origin_x_in acc.2 height_in
            letter_spacing_em word_spacing_em font_scale).1,
         acc.2 + scaledLineSpacing))
      (s, baseline_y_in)
    (final.1, some lines.length)

/-- One positioning call of a session: `moveto(x, y)` or `lineto(x, y)`. -/
inductive Call where
  | move (x y : ℚ)
  | line (x y : ℚ)
  deriving DecidableEq

/-- The position a call moves the pen to. -/
def Call.target : Call → ℚ × ℚ
  | Call.move x y => (x, y)
  | Call.line x y => (x, y)

/-- Whether a call is a pen-down lineto. -/
def Call.isLine : Call → Bool
  | Call.move _ _ => false
  | Call.line _ _ => true

/-- Execute one positioning call against the plotter state. -/
noncomputable def applyCall (s : PState) : Call → PState
  | Call.move x y => moveto s x y
  | Call.line x y => lineto s x y

/-- Execute a sequence of moveto and lineto calls in order. -/
noncomputable def runCalls (s : PState) (calls : List Call) : PState :=
  calls.foldl applyCall s

/-- The sum of Euclidean distances between consecutive pen positions along
a call sequence starting from a known position. -/
noncomputable def travelFrom : ℚ × ℚ → List Call → ℝ
  | _, [] => 0
  | p, c :: cs => segment_len p c.target + travelFrom c.target cs

/-- The same sum restricted to the segments traversed by lineto calls. -/
noncomputable def drawnFrom : ℚ × ℚ → List Call → ℝ
  | _, [] => 0
  | p, c :: cs =>
      (if c.isLine then segment_len p c.target else 0) + drawnFrom c.target cs

/-- Total Euclidean travel of a call sequence started with no prior
position: the first call contributes nothing, each later call contributes
the distance from the previous target. -/
noncomputable def travelSpec : List Call → ℝ
  | [] => 0
  | c :: cs => travelFrom c.target cs

/-- Total drawn length of a call sequence started with no prior position:
only lineto calls after the first call contribute. -/
noncomputable def drawnSpec : List Call → ℝ
  | [] => 0
  | c :: cs => drawnFrom c.target cs

/-! ### Projection lemmas for the plotter operations -/

@[simp]
theorem moveto_pos (s : PState) (x y : ℚ) : (moveto s x y).pos = some (x, y) := by
  unfold moveto
  rcases hp : s.pos with _ | p <;> dsimp only <;> split <;> rfl

@[simp]
theorem moveto_penDistance (s : PState) (x y : ℚ) :
    (moveto s x y).penDistance =
      match s.pos with
      | some p => s.penDistance + segment_len p (x, y)
      | none => s.penDistance := by
  unfold moveto
  rcases hp : s.pos with _ | p <;> dsimp only <;> split <;> rfl

@[simp]
theorem moveto_drawnLength (s : PState) (x y : ℚ) :
    (moveto s x y).drawnLength = s.drawnLength := by
  unfold moveto
  rcases hp : s.pos with _ | p <;> dsimp only <;> split <;> rfl

@[simp]
theorem moveto_useDevice (s : PState) (x y : ℚ) :
    (moveto s x y).useDevice = s.useDevice := by
  unfold moveto
  rcases hp : s.pos with _ | p <;> dsimp only <;> split <;> rfl

@[simp]
theorem moveto_commandLog (s : PState) (x y : ℚ) :
    (moveto s x y).commandLog =
      if s.useDevice then s.commandLog
      else s.commandLog ++ [Cmd.moveto x y] := by
  unfold moveto
  rcases hp : s.pos with _ | p <;> dsimp only <;> split <;> simp_all

@[simp]
theorem moveto_devEvents (s : PState) (x y : ℚ) :
    (moveto s x y).devEvents =
      if s.useDevice then s.devEvents ++ [DevEvent.moveto x y]
      else s.devEvents := by
  unfold moveto
  rcases hp : s.pos with _ | p <;> dsimp only <;> split <;> simp_all

@[simp]
theorem moveto_xmin (s : PState) (x y : ℚ) : (moveto s x y).xmin = s.xmin := by
  unfold moveto; rcases hp : s.pos with _ | p <;> dsimp only <;> split <;> rfl

@[simp]
theorem moveto_ymin (s : PState) (x y : ℚ) : (moveto s x y).ymin = s.ymin := by
  unfold moveto; rcases hp : s.pos with _ | p <;> dsimp only <;> split <;> rfl

@[simp]
theorem moveto_xmax (s : PState) (x y : ℚ) : (moveto s x y).xmax = s.xmax := by
  unfold moveto; rcases hp : s.pos with _ | p <;> dsimp only <;> split <;> rfl

@[simp]
theorem moveto_ymax (s : PState) (x y : ℚ) : (moveto s x y).ymax = s.ymax := by
  unfold moveto; rcases hp : s.pos with _ | p <;> dsimp only <;> split <;> rfl

@[simp]
theorem lineto_pos (s : PState) (x y : ℚ) : (lineto s x y).pos = some (x, y) := by
  unfold lineto
  rcases hp : s.pos with _ | p <;> dsimp only <;> split <;> rfl

@[simp]
theorem lineto_penDistance (s : PState) (x y : ℚ) :
    (lineto s x y).penDistance =
      match s.pos with
      | some p => s.penDistance + segment_len p (x, y)
      | none => s.penDistance := by
  unfold lineto
  rcases hp : s.pos with _ | p <;> dsimp only <;> split <;> rfl

@[simp]
theorem lineto_drawnLength (s : PState) (x y : ℚ) :
    (lineto s x y).drawnLength =
      match s.pos with
      | some p => s.drawnLength + segment_len p (x, y)
      | none => s.drawnLength := by
  unfold lineto
  rcases hp : s.pos with _ | p <;> dsimp only <;> split <;> rfl

@[simp]
theorem lineto_useDevice (s : PState) (x y : ℚ) :
    (lineto s x y).useDevice = s.useDevice := by
  unfold lineto
  rcases hp : s.pos with _ | p <;> dsimp only <;> split <;> rfl

@[simp]
theorem lineto_commandLog (s : PState) (x y : ℚ) :
    (lineto s x y).commandLog =
      if s.useDevice then s.commandLog
      else s.commandLog ++ [Cmd.lineto x y] := by
  unfold lineto
  rcases hp : s.pos with _ | p <;> dsimp only <;> split <;> simp_all

@[simp]
theorem lineto_xmin (s : PState) (x y : ℚ) : (lineto s x y).xmin = s.xmin := by
  unfold lineto; rcases hp : s.pos with _ | p <;> dsimp only <;> split <;> rfl

@[simp]
theorem lineto_ymin (s : PState) (x y : ℚ) : (lineto s x y).ymin = s.ymin := by
  unfold lineto; rcases hp : s.pos with _ | p <;> dsimp only <;> split <;> rfl

@[simp]
theorem lineto_xmax (s : PState) (x y : ℚ) : (lineto s x y).xmax = s.xmax := by
  unfold lineto; rcases hp : s.pos with _ | p <;> dsimp only <;> split <;> rfl

@[simp]
theorem lineto_ymax (s : PState) (x y : ℚ) : (lineto s x y).ymax = s.ymax := by
  unfold lineto; rcases hp : s.pos with _ | p <;> dsimp only <;> split <;> rfl

/-- The squared displacement of a point against itself is zero, hence so is
its Euclidean segment length. -/
@[simp]
theorem segment_len_self (p : ℚ × ℚ) : segment_len p p = 0 := by
  unfold segment_len
  simp

/-! ### Claim C1: the two distance accumulators -/

/-- From a state with a known position, running a call sequence adds to the
travel accumulator the full consecutive-segment sum and to the drawn-length
accumulator the lineto-restricted sum. -/
theorem runCalls_accumulators :
    ∀ (calls : List Call) (s : PState) (p : ℚ × ℚ), s.pos = some p →
    (runCalls s calls).penDistance = s.penDistance + travelFrom p calls ∧
    (runCalls s calls).drawnLength = s.drawnLength + drawnFrom p calls := by
  intro calls
  induction calls with
  | nil =>
      intro s p hp
      simp [runCalls, travelFrom, drawnFrom]
  | cons c cs ih =>
      intro s p hp
      have hstep : runCalls s (c :: cs) = runCalls (applyCall s c) cs := rfl
      rcases c with ⟨x, y⟩ | ⟨x, y⟩
      · have h1 := ih (applyCall s (Call.move x y)) (x, y)
          (by simp [applyCall])
        rw [hstep]
        rcases h1 with ⟨h1p, h1d⟩
        rw [h1p, h1d]
        simp [applyCall, hp, travelFrom, drawnFrom, Call.target, Call.isLine]
        ring
      · have h1 := ih (applyCall s (Call.line x y)) (x, y)
          (by simp [applyCall])
        rw [hstep]
        rcases h1 with ⟨h1p, h1d⟩
        rw [h1p, h1d]
        simp [applyCall, hp, travelFrom, drawnFrom, Call.target, Call.isLine]
        constructor <;> ring

/-- Claim C1: in either mode and for any page geometry, after any sequence
of moveto and lineto calls on a fresh plotter, the travel accumulator is
the sum of Euclidean distances between consecutive pen positions over all
calls, the drawn-length accumulator is that sum restricted to lineto
segments, and the first positioning call contributes zero to both. -/
theorem travel_drawn_accumulators (useDevice : Bool) (x0 y0 x1 y1 : ℚ)
    (calls : List Call) :
    (runCalls (mkPlotter useDevice x0 y0 x1 y1) calls).penDistance =
      travelSpec calls ∧
    (runCalls (mkPlotter useDevice x0 y0 x1 y1) calls).drawnLength =
      drawnSpec calls := by
  rcases calls with _ | ⟨c, cs⟩
  · simp [runCalls, travelSpec, drawnSpec, mkPlotter]
  · have hpos : (applyCall (mkPlotter useDevice x0 y0 x1 y1) c).pos =
        some c.target := by
      rcases c <;> simp [applyCall, Call.target]
    have h := runCalls_accumulators cs
      (applyCall (mkPlotter useDevice x0 y0 x1 y1) c) c.target hpos
    have hpen : (applyCall (mkPlotter useDevice x0 y0 x1 y1) c).penDistance
        = 0 := by
      rcases c <;> simp [applyCall, mkPlotter]
    have hdrawn : (applyCall (mkPlotter useDevice x0 y0 x1 y1) c).drawnLength
        = 0 := by
      rcases c <;> simp [applyCall, mkPlotter]
    have hstep : runCalls (mkPlotter useDevice x0 y0 x1 y1) (c :: cs) =
        runCalls (applyCall (mkPlotter useDevice x0 y0 x1 y1) c) cs := rfl
    rw [hstep]
    rcases h with ⟨h1, h2⟩
    rw [h1, h2, hpen, hdrawn]
    simp [travelSpec, drawnSpec]

/-! ### Claim C3: replay script handling of a leading LineTo -/

/-- Rounding to three decimals is the identity on integers. -/
theorem round3_intCast (n : ℤ) : round3 (n : ℚ) = n := by
  have h1 : ((n : ℚ) * 1000) = ((1000 * n : ℤ) : ℚ) := by push_cast; ring
  rw [round3, h1, ratRoundHalfUp]
  rw [Rat.num_intCast, Rat.den_intCast]
  rw [Int.fdiv_eq_ediv _ (by norm_num)]
  have h2 : (2 * (1000 * n) + ((1 : ℕ) : ℤ)) / (2 * ((1 : ℕ) : ℤ)) =
      1000 * n := by
    push_cast
    omega
  rw [h2]
  push_cast
  field_simp

/-- Claim C3 counterexample: for the one-entry log `[LineTo(1, 2)]` the
replay script consists of the synthesized `moveto(1, 2)` alone; the original
first LineTo entry is dropped, not replayed after the moveto as the claim
states, so the script contains one command and no lineto at all. -/
theorem replay_first_lineto_counterexample :
    replayCmds [Cmd.lineto 1 2] = [ReplayLine.moveto 1 2] ∧
    (replayCmds [Cmd.lineto 1 2]).length = 1 := by
  have h1 : round3 1 = 1 := by simpa using round3_intCast 1
  have h2 : round3 2 = 2 := by simpa using round3_intCast 2
  constructor
  · show ReplayLine.moveto (round3 1) (round3 2) :: [].flatMap replayStep =
      [ReplayLine.moveto 1 2]
    rw [h1, h2]
    rfl
  · rfl

/-- Claim C3 (amended): when the first recorded entry is `LineTo(x, y)`, the
generated replay script emits a synthesized moveto to (x, y) in its place
and then replays only the remaining entries; the first LineTo entry itself
is not re-emitted. -/
theorem replay_first_lineto_amended (x y : ℚ) (rest : List Cmd) :
    replayCmds (Cmd.lineto x y :: rest) =
      ReplayLine.moveto (round3 x) (round3 y) :: rest.flatMap replayStep := rfl

/-! ### Claim C5: confirmColorChange parks the pen at the origin first -/

/-- Claim C5: for every color name and in both modes, `confirmColorChange`
performs a `moveto(0, 0)` before any other effect: the pen position becomes
(0, 0), in simulated mode the command log receives a MoveTo(0, 0) entry
immediately before the ColorChange entry, and in device mode the device
receives the moveto immediately before the blocking prompt. -/
theorem confirmColorChange_moveto_first (s : PState) (name : String) :
    (confirmColorChange s name).pos = some (0, 0) ∧
    (confirmColorChange s name).commandLog =
      (if s.useDevice then s.commandLog
       else s.commandLog ++ [Cmd.moveto 0 0, Cmd.color name]) ∧
    (confirmColorChange s name).devEvents =
      (if s.useDevice then s.devEvents ++ [DevEvent.moveto 0 0,
          DevEvent.prompt name]
       else s.devEvents) := by
  unfold confirmColorChange
  rcases hd : s.useDevice <;> simp [hd]

/-! ### Claim C6: color lookup never fails and falls back to black -/

/-- Claim C6: color resolution is total; a non-string input resolves to
(0, 0, 0), and any string whose stripped and uppercased form is not a key of
the color table resolves to the same RGB as BLACK, namely (0, 0, 0). -/
theorem rgb_for_name_fallback (s : String)
    (h : COLOR_TABLE.lookup (pyStripUpper s) = none) :
    rgb_for_name (ColorArg.str s) = rgb_for_name (ColorArg.str "BLACK") ∧
    rgb_for_name (ColorArg.str s) = (0, 0, 0) ∧
    rgb_for_name ColorArg.notStr = (0, 0, 0) := by
  refine ⟨?_, ?_, rfl⟩ <;> simp [rgb_for_name, h] <;> rfl

/-- Claim C6 witness: TEAL is not a key of the color table and resolves to
(0, 0, 0), like every unknown name. -/
theorem rgb_for_name_fallback_witness :
    COLOR_TABLE.lookup (pyStripUpper "TEAL") = none ∧
    (rgb_for_name (ColorArg.str "TEAL") =
        rgb_for_name (ColorArg.str "BLACK") ∧
     rgb_for_name (ColorArg.str "TEAL") = (0, 0, 0) ∧
     rgb_for_name ColorArg.notStr = (0, 0, 0)) :=
  ⟨by decide, rgb_for_name_fallback "TEAL" (by decide)⟩

/-! ### Claim C8: outlinePage without dots is five moveto calls -/

/-- Claim C8: in simulated mode, `outlinePage(do_dots=False)` appends to the
command log exactly five MoveTo entries and no LineTo entries, visiting the
four corners in order and returning to (xmin, ymin), where the pen ends. -/
theorem outlinePage_no_dots_five_moveto (s : PState)
    (h : s.useDevice = false) :
    (outlinePage s false).commandLog = s.commandLog ++
      [Cmd.moveto s.xmin s.ymin, Cmd.moveto s.xmin s.ymax,
       Cmd.moveto s.xmax s.ymax, Cmd.moveto s.xmax s.ymin,
       Cmd.moveto s.xmin s.ymin] ∧
    (outlinePage s false).pos = some (s.xmin, s.ymin) := by
  unfold outlinePage
  simp [h]

/-- Claim C8 witness: on a freshly constructed simulated plotter with the
default page (0, 0)-(11.69, 8.27), the outline is five moveto commands and
the pen ends at the origin. -/
theorem outlinePage_no_dots_five_moveto_witness :
    (mkPlotter false 0 0 11.69 8.27).useDevice = false ∧
    ((outlinePage (mkPlotter false 0 0 11.69 8.27) false).commandLog =
      (mkPlotter false 0 0 11.69 8.27).commandLog ++
      [Cmd.moveto (mkPlotter false 0 0 11.69 8.27).xmin
          (mkPlotter false 0 0 11.69 8.27).ymin,
       Cmd.moveto (mkPlotter false 0 0 11.69 8.27).xmin
          (mkPlotter false 0 0 11.69 8.27).ymax,
       Cmd.moveto (mkPlotter false 0 0 11.69 8.27).xmax
          (mkPlotter false 0 0 11.69 8.27).ymax,
       Cmd.moveto (mkPlotter false 0 0 11.69 8.27).xmax
          (mkPlotter false 0 0 11.69 8.27).ymin,
       Cmd.moveto (mkPlotter false 0 0 11.69 8.27).xmin
          (mkPlotter false 0 0 11.69 8.27).ymin] ∧
     (outlinePage (mkPlotter false 0 0 11.69 8.27) false).pos =
      some ((mkPlotter false 0 0 11.69 8.27).xmin,
            (mkPlotter false 0 0 11.69 8.27).ymin)) :=
  ⟨rfl, outlinePage_no_dots_five_moveto (mkPlotter false 0 0 11.69 8.27) rfl⟩

/-! ### Claim C9: the options snapshot is captured by the first connect -/

/-- Claim C9: offline, `connect` always reports success; the snapshot after
`connect` is the pre-existing one if any, else a copy of the current
options; the replay script then uses that snapshot regardless of any later
mutation of the options; and if `connect` was never run (no snapshot), the
replay script falls back to the option values current at finalize time. -/
theorem connect_snapshot_first_only (s : PState) (r : Bool)
    (newOpts : PlotOptions) (h : s.useDevice = false) :
    (connect r s).1 = true ∧
    (connect r s).2.optionsSnapshot =
      some (s.optionsSnapshot.getD (snapshot_current_options s.options)) ∧
    replayScriptOptions (setOptions (connect r s).2 newOpts) =
      s.optionsSnapshot.getD (snapshot_current_options s.options) ∧
    (s.optionsSnapshot = none →
      replayScriptOptions s = snapshot_current_options s.options) := by
  unfold connect replayScriptOptions setOptions
  rcases hs : s.optionsSnapshot with _ | o <;> simp [h, hs]

/-- Claim C9 witness: on a fresh simulated plotter (no snapshot yet),
connect succeeds, snapshots the default options, and a later options
mutation does not change what the replay script applies. -/
theorem connect_snapshot_first_only_witness :
    (mkPlotter false 0 0 1 1).useDevice = false ∧
    ((connect true (mkPlotter false 0 0 1 1)).1 = true ∧
     (connect true (mkPlotter false 0 0 1 1)).2.optionsSnapshot =
       some ((mkPlotter false 0 0 1 1).optionsSnapshot.getD
         (snapshot_current_options (mkPlotter false 0 0 1 1).options)) ∧
     replayScriptOptions (setOptions (connect true (mkPlotter false 0 0 1 1)).2
         ⟨1, 2, 3, 4, 5⟩) =
       (mkPlotter false 0 0 1 1).optionsSnapshot.getD
         (snapshot_current_options (mkPlotter false 0 0 1 1).options) ∧
     ((mkPlotter false 0 0 1 1).optionsSnapshot = none →
       replayScriptOptions (mkPlotter false 0 0 1 1) =
         snapshot_current_options (mkPlotter false 0 0 1 1).options)) :=
  ⟨rfl, connect_snapshot_first_only (mkPlotter false 0 0 1 1) true
    ⟨1, 2, 3, 4, 5⟩ rfl⟩

/-! ### Claim C10: outlinePage never adds drawn length -/

/-- Claim C10: for both values of the dots flag, `outlinePage` leaves the
drawn-length accumulator unchanged: each optional lineto targets the corner
the pen just moved to, a zero-length segment; while the travel accumulator
grows by the approach to the first corner (when a position exists) plus the
four corner-to-corner distances. -/
theorem outlinePage_drawnLength_unchanged (s : PState) (dd : Bool) :
    (outlinePage s dd).drawnLength = s.drawnLength ∧
    (outlinePage s dd).penDistance =
      (match s.pos with
       | some p => s.penDistance + segment_len p (s.xmin, s.ymin)
       | none => s.penDistance) +
      segment_len (s.xmin, s.ymin) (s.xmin, s.ymax) +
      segment_len (s.xmin, s.ymax) (s.xmax, s.ymax) +
      segment_len (s.xmax, s.ymax) (s.xmax, s.ymin) +
      segment_len (s.xmax, s.ymin) (s.xmin, s.ymin) := by
  unfold outlinePage
  rcases dd <;> rcases hp : s.pos with _ | p <;> simp [hp]

/-! ### Claim C2: wrapped lines respect the width budget, no word dropped -/

theorem lineTailWidth_append (h t : ℚ) (ws : Option ℚ) (l : List String)
    (w : String) :
    lineTailWidth h t ws (l ++ [w]) =
      lineTailWidth h t ws l + space_advance_inches h t ws +
      measure_word_width_inches w h t := by
  induction l with
  | nil => simp [lineTailWidth]
  | cons x xs ih =>
      simp [lineTailWidth, ih]
      ring

theorem lineMeasuredWidth_append (h t : ℚ) (ws : Option ℚ) (l : List String)
    (w : String) :
    lineMeasuredWidth h t ws (l ++ [w]) =
      lineMeasuredWidth h t ws l +
      (if l = [] then 0 else space_advance_inches h t ws) +
      measure_word_width_inches w h t := by
  rcases l with _ | ⟨x, xs⟩
  · simp [lineMeasuredWidth, lineTailWidth]
  · simp [lineMeasuredWidth, lineTailWidth_append]
    ring

theorem lineMeasuredWidth_singleton (h t : ℚ) (ws : Option ℚ) (w : String) :
    lineMeasuredWidth h t ws [w] = measure_word_width_inches w h t := by
  simp [lineMeasuredWidth, lineTailWidth]

/-- Concatenating the lines produced by the wrap loop restores the pending
line followed by the words still to be processed. -/
theorem wrapLoop_join (h t : ℚ) (ws : Option ℚ) (mw : ℚ) :
    ∀ (words cur : List String) (cw : ℚ),
      (wrapLoop h t ws mw words cur cw).flatten = cur ++ words := by
  intro words
  induction words with
  | nil =>
      intro cur cw
      by_cases hc : cur = [] <;> simp [wrapLoop, hc]
  | cons w rest ih =>
      intro cur cw
      rw [wrapLoop]
      by_cases hc : cur = []
      · simp [hc, ih]
      · simp only [hc, ne_eq, not_false_eq_true, if_true, true_and,
          ite_true]
        split <;> simp [ih]

/-- Invariant of the wrap loop: if the running width is the measured width
of the pending line and the pending line is empty or within budget or a
lone over-budget word, then every emitted line is within budget or a lone
over-budget word. -/
theorem wrapLoop_good (h t : ℚ) (ws : Option ℚ) (mw : ℚ) :
    ∀ (words cur : List String) (cw : ℚ),
      cw = lineMeasuredWidth h t ws cur →
      (cur = [] ∨ lineMeasuredWidth h t ws cur ≤ mw * 0.6 ∨
        ∃ u, cur = [u] ∧ measure_word_width_inches u h t > mw * 0.6) →
      ∀ l ∈ wrapLoop h t ws mw words cur cw,
        lineMeasuredWidth h t ws l ≤ mw * 0.6 ∨
        ∃ u, l = [u] ∧ measure_word_width_inches u h t > mw * 0.6 := by
  intro words
  induction words with
  | nil =>
      intro cur cw hcw hinv l hl
      by_cases hc : cur = []
      · simp [wrapLoop, hc] at hl
      · simp [wrapLoop, hc] at hl
        subst hl
        rcases hinv with hemp | hgood
        · exact absurd hemp hc
        · exact hgood
  | cons w rest ih =>
      intro cur cw hcw hinv l hl
      rw [wrapLoop] at hl
      by_cases hc : cur = []
      · subst hc
        simp only [ne_eq, not_true_eq_false, false_and, if_false,
          ite_false, List.nil_append] at hl
        have h0 : cw = 0 := by simpa [lineMeasuredWidth] using hcw
        refine ih [w] _ ?_ ?_ l hl
        · rw [h0]
          simp [lineMeasuredWidth, lineTailWidth]
        · rcases le_or_lt (measure_word_width_inches w h t) (mw * 0.6)
            with hle | hgt
          · exact Or.inr (Or.inl (by simpa [lineMeasuredWidth_singleton]))
          · exact Or.inr (Or.inr ⟨w, rfl, hgt⟩)
      · simp only [hc, ne_eq, not_false_eq_true, if_true, true_and,
          ite_true] at hl
        split at hl
        · rcases List.mem_cons.mp hl with rfl | hmem
          · rcases hinv with hemp | hgood
            · exact absurd hemp hc
            · exact hgood
          · refine ih [w] _ ?_ ?_ l hmem
            · simp [lineMeasuredWidth, lineTailWidth]
            · rcases le_or_lt (measure_word_width_inches w h t) (mw * 0.6)
                with hle | hgt
              · exact Or.inr (Or.inl (by simpa [lineMeasuredWidth_singleton]))
              · exact Or.inr (Or.inr ⟨w, rfl, hgt⟩)
        · rename_i hbr
          have hle : cw + space_advance_inches h t ws +
              measure_word_width_inches w h t ≤ mw * 0.6 := le_of_not_lt hbr
          have hw : lineMeasuredWidth h t ws (cur ++ [w]) =
              cw + space_advance_inches h t ws +
              measure_word_width_inches w h t := by
            rw [lineMeasuredWidth_append, hcw]
            simp [hc]
          refine ih (cur ++ [w]) _ ?_ ?_ l hl
          · rw [hw]
          · refine Or.inr (Or.inl ?_)
            rw [hw]
            exact hle

/-- Claim C2: every line produced by the word wrap of `draw_wrapped_text`
measures at most 0.6 times the stated maximum width with the unscaled
metrics, except a line that is a single word whose own width exceeds that
budget; and the lines concatenate back to exactly the split input words, so
every word lands on exactly one line and none is dropped. -/
theorem draw_wrapped_text_wrap_bound (h t mw : ℚ) (ws : Option ℚ)
    (text : String) (l : List String)
    (hl : l ∈ wrapWords (splitWords text) h t ws mw) :
    (lineMeasuredWidth h t ws l ≤ mw * 0.6 ∨
      ∃ u, l = [u] ∧ measure_word_width_inches u h t > mw * 0.6) ∧
    (wrapWords (splitWords text) h t ws mw).flatten = splitWords text := by
  constructor
  · exact wrapLoop_good h t ws mw (splitWords text) [] 0
      (by simp [lineMeasuredWidth]) (Or.inl rfl) l hl
  · simpa using wrapLoop_join h t ws mw (splitWords text) [] 0

/-- Claim C2 witness: wrapping the text hi at height 0.6 with tracking 0.12
and maximum width 5 produces the single line of the single word, which
satisfies the budget disjunction, and the lines flatten back to the words. -/
theorem draw_wrapped_text_wrap_bound_witness :
    (["hi"] ∈ wrapWords (splitWords "hi") 0.6 0.12 none 5) ∧
    ((lineMeasuredWidth 0.6 0.12 none ["hi"] ≤ 5 * 0.6 ∨
      ∃ u, (["hi"] : List String) = [u] ∧
        measure_word_width_inches u 0.6 0.12 > 5 * 0.6) ∧
     (wrapWords (splitWords "hi") 0.6 0.12 none 5).flatten =
       splitWords "hi") :=
  ⟨by decide, draw_wrapped_text_wrap_bound 0.6 0.12 5 none "hi" ["hi"]
    (by decide)⟩

/-! ### Claim C7: wrapping decisions are independent of the draw scale -/

/-- Claim C7: for any two font scale factors, `draw_wrapped_text` computes
the identical wrapped-line structure and hence the identical return value:
the result is determined by the unscaled base height, letter spacing, word
spacing and maximum width alone, as the number of lines of the scale-free
`wrapWords` of the split text, while the scale touches only the drawing. -/
theorem draw_wrapped_text_scale_independent (s : PState) (text : String)
    (ox oy h mw t : ℚ) (ws : Option ℚ) (lsp : Option ℚ) (fs₁ fs₂ : ℚ) :
    (draw_wrapped_text s text ox oy h mw t ws lsp fs₁).2 =
      (draw_wrapped_text s text ox oy h mw t ws lsp fs₂).2 ∧
    (draw_wrapped_text s text ox oy h mw t ws lsp fs₁).2 =
      (if splitWords text = [] then none
       else some (wrapWords (splitWords text) h t ws mw).length) := by
  unfold draw_wrapped_text
  by_cases he : splitWords text = [] <;> simp [he]

/-! ### Claim C4: measurement equals the drawn advance -/

/-- Lowercasing maps only basic latin capitals, so only the space character
lowercases to the space character. -/
theorem char_toLower_space {c : Char} (h : c.toLower = ' ') : c = ' ' := by
  simp only [Char.toLower] at h
  split at h
  · rename_i hcond
    exfalso
    have h65 : 65 ≤ c.toNat := hcond.1
    have h90 : c.toNat ≤ 90 := hcond.2
    have hvalid : (c.toNat + 32).isValidChar := Or.inl (by omega)
    have htoNat : (Char.ofNat (c.toNat + 32)).toNat = c.toNat + 32 := by
      rw [Char.ofNat, dif_pos hvalid]
      rfl
    have h32 : (Char.ofNat (c.toNat + 32)).toNat = (' ' : Char).toNat := by
      rw [h]
    rw [htoNat] at h32
    have hsp : (' ' : Char).toNat = 32 := rfl
    omega
  · exact h

/-- The advance returned by `draw_glyph` is the uniform em width times the
height plus the tracking, whatever the character and its font entry. -/
@[simp]
theorem draw_glyph_advance (s : PState) (ch : Char) (x y height_in : ℚ)
    (tracking_in : ℚ) :
    (draw_glyph s ch x y height_in tracking_in).2 =
      GLYPH_WIDTH_EM * height_in + tracking_in := rfl

/-- Cursor accumulation of the `draw_text_line` loop over space-free
characters: each character advances the cursor by the glyph advance. -/
theorem draw_text_line_cursor (oy h t : ℚ) (ws : Option ℚ) :
    ∀ (cs : List Char), (∀ c ∈ cs, c ≠ ' ') →
    ∀ (acc : PState × ℚ),
      (cs.foldl (draw_text_line_step oy h t ws) acc).2 =
        acc.2 + (cs.length : ℚ) * (GLYPH_WIDTH_EM * h + t * h) := by
  intro cs
  induction cs with
  | nil =>
      intro _ acc
      simp
  | cons c cs ih =>
      intro hns acc
      have hc : c ≠ ' ' := hns c (List.mem_cons_self c cs)
      have hlower : ¬(c.toLower = ' ' ∧ ws.isSome) := fun hcontra =>
        hc (char_toLower_space hcontra.1)
      have hstep : (draw_text_line_step oy h t ws acc c).2 =
          acc.2 + (GLYPH_WIDTH_EM * h + t * h) := by
        unfold draw_text_line_step
        rw [if_neg hlower]
        simp
      rw [List.foldl_cons,
        ih (fun d hd => hns d (List.mem_cons_of_mem c hd)), hstep]
      push_cast [List.length_cons]
      ring

/-- Claim C4: for a non-empty word without spaces, the measured word width
at the base height equals the total cursor advance accumulated while
`draw_text_line` draws it at scale one, each glyph advancing by the value
returned by `draw_glyph`; that total is the character count times the
uniform advance (em width 0.6 plus tracking) times height, independent of
the per-glyph width entries of the font table. -/
theorem measure_word_matches_drawn_advance (s : PState) (w : String)
    (ox oy h t : ℚ) (ws : Option ℚ) (hne : w ≠ "")
    (hns : ∀ c ∈ w.data, c ≠ ' ') :
    (draw_text_line s w ox oy h t ws 1).2 =
      ox + measure_word_width_inches w h t ∧
    measure_word_width_inches w h t =
      (w.length : ℚ) * ((GLYPH_WIDTH_EM + t) * h) := by
  have hm : measure_word_width_inches w h t =
      (w.length : ℚ) * ((GLYPH_WIDTH_EM + t) * h) := by
    rw [measure_word_width_inches, if_neg hne, glyph_advance_inches]
  refine ⟨?_, hm⟩
  unfold draw_text_line
  rw [draw_text_line_cursor oy (h * 1) t ws w.data hns (s, ox), hm]
  have hlen : ((String.length w : ℕ) : ℚ) = ((w.data.length : ℕ) : ℚ) := rfl
  rw [hlen]
  ring

/-- Claim C4 witness: the word hi at height 0.5 with tracking 0.12 measures
exactly what drawing advances, two characters at 0.72 times 0.5 inches. -/
theorem measure_word_matches_drawn_advance_witness :
    ("hi" : String) ≠ "" ∧ (∀ c ∈ ("hi" : String).data, c ≠ ' ') ∧
    ((draw_text_line (mkPlotter false 0 0 1 1) "hi" 0 0 0.5 0.12 none 1).2 =
        0 + measure_word_width_inches "hi" 0.5 0.12 ∧
     measure_word_width_inches "hi" 0.5 0.12 =
        (("hi" : String).length : ℚ) * ((GLYPH_WIDTH_EM + 0.12) * 0.5)) :=
  ⟨by decide, by decide,
    measure_word_matches_drawn_advance (mkPlotter false 0 0 1 1) "hi"
      0 0 0.5 0.12 none (by decide) (by decide)⟩

end AxidrawFont
